import Mathlib

/-!
Verification development for the AIVSS-Agentic scoring engine of the
mcpagentscanner repository.  The repository ships the OWASP AIVSS
methodology document (`src/threat_list/owasp_top_10.md`) — which fixes the
scoring equation `AIVSS = ((CVSS_Base + AARS) / 2) × ThM`, the ten agentic
risk factors on the {0.0, 0.5, 1.0} scale, the qualitative rating bands and
the Appendix A report JSON schema — together with the dashboard UI.  The
engine components themselves (VectorCodec, SeverityClassifier,
FactorAggregator, ThreatMultiplierResolver, CompositeScorer,
AssessmentReportBuilder) are modelled here following the specification's
component design, with every numeric rule taken from the methodology
document.  Scores are rational numbers; vector texts are lists of
characters.
-/

/-- Clamp a rational score to the interval [0, 10]. -/
def clamp10 (x : ℚ) : ℚ := max 0 (min 10 x)

/-- Round a rational to one decimal place (half away from zero on the
nonnegative values used here). -/
def round1 (x : ℚ) : ℚ := ((⌊x * 10 + 1/2⌋ : ℤ) : ℚ) / 10

/-! ### CompositeScorer -/

/-- Modelled from the spec: error raised by `CompositeScorer.score` when
`baseSeverity` or `aars` lies outside [0,10]. -/
inductive CompositeError where
  | OutOfRangeInputError
  deriving DecidableEq

/-- Modelled from the spec: the primary scoring equation
`raw = ((baseSeverity + aars) / 2) * threatMultiplier`, clamped to [0,10]
and rounded to one decimal; inputs outside [0,10] are rejected before any
arithmetic (spec 4.5, methodology document 4.1.1). -/
def CompositeScorer.score (baseSeverity aars threatMultiplier : ℚ) :
    Except CompositeError ℚ :=
  if baseSeverity < 0 ∨ 10 < baseSeverity ∨ aars < 0 ∨ 10 < aars then
    .error .OutOfRangeInputError
  else
    .ok (round1 (clamp10 (((baseSeverity + aars) / 2) * threatMultiplier)))

/-- Qualitative rating bands (None/Low/Medium/High/Critical). -/
inductive QualitativeRating where
  | none
  | low
  | medium
  | high
  | critical
  deriving DecidableEq

/-- Modelled from the spec: fixed thresholds — None: score = 0.0;
Low: 0.1–3.9; Medium: 4.0–6.9; High: 7.0–8.9; Critical: 9.0–10.0
(spec section 3, methodology document qualitative rating enumeration). -/
def qualitativeRating (s : ℚ) : QualitativeRating :=
  if s = 0 then .none
  else if s ≤ 39/10 then .low
  else if s ≤ 69/10 then .medium
  else if s ≤ 89/10 then .high
  else .critical

/-! ### FactorAggregator -/

/-- The ten fundamental agentic risk amplification factors (methodology
document section 3.2). -/
inductive FactorName where
  | autonomyOfAction
  | toolUse
  | memoryUse
  | dynamicIdentity
  | multiAgentInteractions
  | nonDeterminism
  | selfModification
  | goalDrivenPlanning
  | contextualAwareness
  | opacityAndReflexivity
  deriving DecidableEq

/-- The ten factor names in their documented order. -/
def factorList : List FactorName :=
  [.autonomyOfAction, .toolUse, .memoryUse, .dynamicIdentity,
   .multiAgentInteractions, .nonDeterminism, .selfModification,
   .goalDrivenPlanning, .contextualAwareness, .opacityAndReflexivity]

/-- Modelled from the spec: errors of `FactorAggregator.aggregate`
(spec 4.3). -/
inductive AggregateError where
  | MissingFactorError
  | InvalidFactorValueError
  deriving DecidableEq

/-- A factor value is valid when it is one of {0.0, 0.5, 1.0}. -/
def validFactorValue (v : ℚ) : Prop := v = 0 ∨ v = 1/2 ∨ v = 1

instance (v : ℚ) : Decidable (validFactorValue v) := by
  unfold validFactorValue; infer_instance

/-- Modelled from the spec: `aggregate` over a loose factor mapping — fails
with `MissingFactorError` if any of the ten named factors is absent, with
`InvalidFactorValueError` if a supplied value is not one of {0.0,0.5,1.0},
and otherwise returns the arithmetic sum with no separate clamping
(spec 4.3, methodology document 4.1.2). -/
def FactorAggregator.aggregate (f : FactorName → Option ℚ) :
    Except AggregateError ℚ :=
  if ∃ n ∈ factorList, f n = Option.none then
    .error .MissingFactorError
  else if ∃ n ∈ factorList, ¬ validFactorValue ((f n).getD 0) then
    .error .InvalidFactorValueError
  else
    .ok ((factorList.map (fun n => (f n).getD 0)).sum)

/-! ### ThreatMultiplierResolver -/

/-- Modelled from the spec: exploit-maturity signals of the documented
threat-multiplier table (spec 4.4, methodology document 4.1.4, mirroring
CVSS v4.0 Exploit Maturity). -/
inductive MaturitySignal where
  | unreported
  | proofOfConcept
  | activelyAttacked
  deriving DecidableEq

/-- Modelled from the spec: input to the resolver — no signal (take the
default), an explicit exploit-maturity signal, or a raw override
multiplier supplied by the caller. -/
inductive MultiplierInput where
  | noSignal
  | signal (s : MaturitySignal)
  | raw (m : ℚ)

/-- Modelled from the spec: error for a raw override outside [0,1]. -/
inductive ResolveError where
  | OutOfRangeMultiplierError
  deriving DecidableEq

/-- Modelled from the spec: the fixed signal→multiplier table.  The source
fixes the ceiling: "actively attacked" (CVSS E=Attacked) resolves to 1.0;
for the remaining signals the source enumerates no number beyond the 0.97
baseline (spec 9), so they are configured at the documented baseline. -/
def signalTable : MaturitySignal → ℚ
  | .activelyAttacked => 1
  | _ => 97/100

/-- Modelled from the spec: `resolve` returns the default 0.97 absent a
signal, maps an explicit signal through the fixed table, and validates a
raw override to lie in [0,1] (spec 4.4). -/
def ThreatMultiplierResolver.resolve : MultiplierInput → Except ResolveError ℚ
  | .noSignal => .ok (97/100)
  | .signal s => .ok (signalTable s)
  | .raw m => if 0 ≤ m ∧ m ≤ 1 then .ok m else .error .OutOfRangeMultiplierError

/-! ### VectorCodec: character-list utilities -/

/-- Split a character list on a delimiter character, keeping empty pieces
(the character-level counterpart of splitting the vector text on the fixed
delimiter). -/
def splitOnChar (c : Char) : List Char → List (List Char)
  | [] => [[]]
  | x :: xs =>
    match splitOnChar c xs with
    | [] => [[]]
    | s :: ss => if x = c then [] :: s :: ss else (x :: s) :: ss

/-- Join character lists with a delimiter character. -/
def intercalateChar (c : Char) : List (List Char) → List Char
  | [] => []
  | [s] => s
  | s :: ss => s ++ c :: intercalateChar c ss

/-! ### VectorCodec: metric value enumerations (CVSS v4.0 base metrics) -/

/-- Attack Vector values, most severe first. -/
inductive AvVal where
  | N | A | L | P
  deriving DecidableEq

/-- Attack Complexity values, most severe first. -/
inductive AcVal where
  | L | H
  deriving DecidableEq

/-- Attack Requirements values, most severe first. -/
inductive AtVal where
  | N | P
  deriving DecidableEq

/-- Privileges Required values, most severe first. -/
inductive PrVal where
  | N | L | H
  deriving DecidableEq

/-- User Interaction values, most severe first. -/
inductive UiVal where
  | N | P | A
  deriving DecidableEq

/-- Impact values shared by VC/VI/VA/SC/SI/SA, most severe first. -/
inductive ImpactVal where
  | H | L | N
  deriving DecidableEq

/-- Exploit Maturity values of the optional Threat group. -/
inductive EVal where
  | X | A | P | U
  deriving DecidableEq

/-- Modelled from the spec: the mandatory metrics of a severity vector —
attack vector, attack complexity, attack requirements, privileges
required, user interaction, and the three vulnerable-system plus three
subsequent-system impact metrics (spec section 3). -/
structure MandatoryMetrics where
  av : AvVal
  ac : AcVal
  atr : AtVal
  pr : PrVal
  ui : UiVal
  vc : ImpactVal
  vi : ImpactVal
  va : ImpactVal
  sc : ImpactVal
  si : ImpactVal
  sa : ImpactVal
  deriving DecidableEq

/-- Modelled from the spec: a parsed severity vector — all mandatory
metrics present exactly once, plus optional supplemental groups
(represented by the Threat group's Exploit Maturity metric) that never
alter mandatory-metric validation (spec section 3). -/
structure SeverityVector where
  mand : MandatoryMetrics
  e : Option EVal
  deriving DecidableEq

/-! ### VectorCodec: codes and value texts -/

def avCode : List Char := ['A', 'V']
def acCode : List Char := ['A', 'C']
def atCode : List Char := ['A', 'T']
def prCode : List Char := ['P', 'R']
def uiCode : List Char := ['U', 'I']
def vcCode : List Char := ['V', 'C']
def viCode : List Char := ['V', 'I']
def vaCode : List Char := ['V', 'A']
def scCode : List Char := ['S', 'C']
def siCode : List Char := ['S', 'I']
def saCode : List Char := ['S', 'A']
def eCode : List Char := ['E']

/-- The version token heading every vector text. -/
def prefixChars : List Char := ['C', 'V', 'S', 'S', ':', '4', '.', '0']

/-- The mandatory metric codes, in canonical order. -/
def mandatoryCodes : List (List Char) :=
  [avCode, acCode, atCode, prCode, uiCode,
   vcCode, viCode, vaCode, scCode, siCode, saCode]

/-- Every metric code the codec recognizes. -/
def knownCodes : List (List Char) := mandatoryCodes ++ [eCode]

def avStr : AvVal → List Char
  | .N => ['N'] | .A => ['A'] | .L => ['L'] | .P => ['P']

def acStr : AcVal → List Char
  | .L => ['L'] | .H => ['H']

def atStr : AtVal → List Char
  | .N => ['N'] | .P => ['P']

def prStr : PrVal → List Char
  | .N => ['N'] | .L => ['L'] | .H => ['H']

def uiStr : UiVal → List Char
  | .N => ['N'] | .P => ['P'] | .A => ['A']

def impactStr : ImpactVal → List Char
  | .H => ['H'] | .L => ['L'] | .N => ['N']

def eStr : EVal → List Char
  | .X => ['X'] | .A => ['A'] | .P => ['P'] | .U => ['U']

/-- Modelled from the spec: the parse errors of the codec (spec 4.1). -/
inductive VCError where
  | MalformedVectorError
  | UnknownMetricError
  | InvalidMetricValueError
  | IncompleteVectorError
  deriving DecidableEq

def parseAv (s : List Char) : Except VCError AvVal :=
  if s = ['N'] then .ok .N else if s = ['A'] then .ok .A
  else if s = ['L'] then .ok .L else if s = ['P'] then .ok .P
  else .error .InvalidMetricValueError

def parseAc (s : List Char) : Except VCError AcVal :=
  if s = ['L'] then .ok .L else if s = ['H'] then .ok .H
  else .error .InvalidMetricValueError

def parseAt (s : List Char) : Except VCError AtVal :=
  if s = ['N'] then .ok .N else if s = ['P'] then .ok .P
  else .error .InvalidMetricValueError

def parsePr (s : List Char) : Except VCError PrVal :=
  if s = ['N'] then .ok .N else if s = ['L'] then .ok .L
  else if s = ['H'] then .ok .H else .error .InvalidMetricValueError

def parseUi (s : List Char) : Except VCError UiVal :=
  if s = ['N'] then .ok .N else if s = ['P'] then .ok .P
  else if s = ['A'] then .ok .A else .error .InvalidMetricValueError

def parseImpact (s : List Char) : Except VCError ImpactVal :=
  if s = ['H'] then .ok .H else if s = ['L'] then .ok .L
  else if s = ['N'] then .ok .N else .error .InvalidMetricValueError

def parseEv (s : List Char) : Except VCError EVal :=
  if s = ['X'] then .ok .X else if s = ['A'] then .ok .A
  else if s = ['P'] then .ok .P else if s = ['U'] then .ok .U
  else .error .InvalidMetricValueError

/-- A `code:value` token. -/
def mkTok (code val : List Char) : List Char := code ++ ':' :: val

/-- The canonical `code ↦ value text` sequence of a vector: mandatory
metrics first, in the documented order; the optional group appended only
if present. -/
def canonPairs (v : SeverityVector) : List (List Char × List Char) :=
  [(avCode, avStr v.mand.av), (acCode, acStr v.mand.ac),
   (atCode, atStr v.mand.atr), (prCode, prStr v.mand.pr),
   (uiCode, uiStr v.mand.ui), (vcCode, impactStr v.mand.vc),
   (viCode, impactStr v.mand.vi), (vaCode, impactStr v.mand.va),
   (scCode, impactStr v.mand.sc), (siCode, impactStr v.mand.si),
   (saCode, impactStr v.mand.sa)] ++
  (match v.e with
   | Option.none => []
   | Option.some ev => [(eCode, eStr ev)])

/-- The canonical token sequence of a vector. -/
def serializeTokens (v : SeverityVector) : List (List Char) :=
  (canonPairs v).map fun p => mkTok p.1 p.2

/-- Modelled from the spec: `serialize` emits codes in one canonical fixed
order, producing `PREFIX:VERSION/CODE:VALUE/...` (spec 4.1, 6). -/
def VectorCodec.serialize (v : SeverityVector) : List Char :=
  intercalateChar '/' (prefixChars :: serializeTokens v)

/-- Split one token into its `code:value` pair. -/
def splitPair (tok : List Char) : Except VCError (List Char × List Char) :=
  match splitOnChar ':' tok with
  | [c, v] => .ok (c, v)
  | _ => .error .MalformedVectorError

/-- Split every token into its `code:value` pair, left to right. -/
def splitPairs : List (List Char) → Except VCError (List (List Char × List Char))
  | [] => .ok []
  | t :: ts =>
    match splitPair t with
    | .error e => .error e
    | .ok p =>
      match splitPairs ts with
      | .error e => .error e
      | .ok ps => .ok (p :: ps)

/-- First value recorded for a code among the parsed pairs. -/
def findVal (code : List Char) :
    List (List Char × List Char) → Option (List Char)
  | [] => Option.none
  | p :: ps => if p.1 = code then Option.some p.2 else findVal code ps

/-- Look up a mandatory code among the parsed pairs: absence is
`IncompleteVectorError`, otherwise the value text is validated against the
code's enumeration. -/
def getMand {α : Type} (pairs : List (List Char × List Char))
    (code : List Char) (f : List Char → Except VCError α) : Except VCError α :=
  match findVal code pairs with
  | Option.none => .error .IncompleteVectorError
  | Option.some s => f s

/-- Assemble a severity vector from parsed `code:value` pairs, checking
every mandatory code in canonical order. -/
def buildVector (pairs : List (List Char × List Char)) :
    Except VCError SeverityVector :=
  match getMand pairs avCode parseAv with
  | .error err => .error err
  | .ok av =>
  match getMand pairs acCode parseAc with
  | .error err => .error err
  | .ok ac =>
  match getMand pairs atCode parseAt with
  | .error err => .error err
  | .ok atr =>
  match getMand pairs prCode parsePr with
  | .error err => .error err
  | .ok pr =>
  match getMand pairs uiCode parseUi with
  | .error err => .error err
  | .ok ui =>
  match getMand pairs vcCode parseImpact with
  | .error err => .error err
  | .ok vc =>
  match getMand pairs viCode parseImpact with
  | .error err => .error err
  | .ok vi =>
  match getMand pairs vaCode parseImpact with
  | .error err => .error err
  | .ok va =>
  match getMand pairs scCode parseImpact with
  | .error err => .error err
  | .ok sc =>
  match getMand pairs siCode parseImpact with
  | .error err => .error err
  | .ok si =>
  match getMand pairs saCode parseImpact with
  | .error err => .error err
  | .ok sa =>
  match findVal eCode pairs with
  | Option.none => .ok ⟨⟨av, ac, atr, pr, ui, vc, vi, va, sc, si, sa⟩, Option.none⟩
  | Option.some s =>
    match parseEv s with
    | .error err => .error err
    | .ok ev => .ok ⟨⟨av, ac, atr, pr, ui, vc, vi, va, sc, si, sa⟩, Option.some ev⟩

/-- Modelled from the spec: processing of the `code:value` tokens —
rejects unrecognized codes (`UnknownMetricError`) and out-of-enumeration
values (`InvalidMetricValueError`), and requires every mandatory code
(`IncompleteVectorError`) (spec 4.1). -/
def parseToks (toks : List (List Char)) : Except VCError SeverityVector :=
  match splitPairs toks with
  | .error err => .error err
  | .ok pairs =>
    if ∃ q ∈ pairs, q.1 ∉ knownCodes then .error .UnknownMetricError
    else buildVector pairs

/-- Modelled from the spec: `parse` splits the text on the fixed
delimiter and validates the version token (`MalformedVectorError`) before
processing the `code:value` tokens. -/
def VectorCodec.parse (t : List Char) : Except VCError SeverityVector :=
  match splitOnChar '/' t with
  | [] => .error .MalformedVectorError
  | p :: toks =>
    if p = prefixChars then parseToks toks
    else .error .MalformedVectorError

/-! ### SeverityClassifier -/

/-- Severity rank of an Attack Vector value (0 = most severe). -/
def avRank : AvVal → ℕ
  | .N => 0 | .A => 1 | .L => 2 | .P => 3

/-- Severity rank of an Attack Complexity value (0 = most severe). -/
def acRank : AcVal → ℕ
  | .L => 0 | .H => 1

/-- Severity rank of an Attack Requirements value (0 = most severe). -/
def atRank : AtVal → ℕ
  | .N => 0 | .P => 1

/-- Severity rank of a Privileges Required value (0 = most severe). -/
def prRank : PrVal → ℕ
  | .N => 0 | .L => 1 | .H => 2

/-- Severity rank of a User Interaction value (0 = most severe). -/
def uiRank : UiVal → ℕ
  | .N => 0 | .P => 1 | .A => 2

/-- Severity rank of an impact value (0 = most severe). -/
def impactRank : ImpactVal → ℕ
  | .H => 0 | .L => 1 | .N => 2

/-- Modelled from the spec: the expert-curated reference table behind the
classifier — a deterministic equivalence-class key on the mandatory
metrics, and per class a ceiling score, an interpolation step size, and
the class's worst-case (most severe) mandatory-metric assignment
(spec 4.2, methodology document section 2 on MacroVectors). -/
structure ClassTable where
  classify : MandatoryMetrics → ℕ
  ceilingScore : ℕ → ℚ
  stepSize : ℕ → ℚ
  worstCase : ℕ → MandatoryMetrics

/-- Number of mandatory-metric positions of `m` whose selected value is
strictly less severe than the worst case `w` at that position; ties
contribute 0. -/
def lessSevereCount (m w : MandatoryMetrics) : ℕ :=
  (if avRank w.av < avRank m.av then 1 else 0) +
  (if acRank w.ac < acRank m.ac then 1 else 0) +
  (if atRank w.atr < atRank m.atr then 1 else 0) +
  (if prRank w.pr < prRank m.pr then 1 else 0) +
  (if uiRank w.ui < uiRank m.ui then 1 else 0) +
  (if impactRank w.vc < impactRank m.vc then 1 else 0) +
  (if impactRank w.vi < impactRank m.vi then 1 else 0) +
  (if impactRank w.va < impactRank m.va then 1 else 0) +
  (if impactRank w.sc < impactRank m.sc then 1 else 0) +
  (if impactRank w.si < impactRank m.si then 1 else 0) +
  (if impactRank w.sa < impactRank m.sa then 1 else 0)

/-- Interpolation distance of a vector within its equivalence class. -/
def SeverityClassifier.distance (tbl : ClassTable) (v : SeverityVector) : ℕ :=
  lessSevereCount v.mand (tbl.worstCase (tbl.classify v.mand))

/-- Modelled from the spec: `score` starts from the ceiling score of the
vector's equivalence class, subtracts `stepSize × distance`, clamps to
[0,10] and rounds to one decimal (spec 4.2). -/
def SeverityClassifier.score (tbl : ClassTable) (v : SeverityVector) : ℚ :=
  round1 (clamp10
    (tbl.ceilingScore (tbl.classify v.mand) -
      tbl.stepSize (tbl.classify v.mand) * (SeverityClassifier.distance tbl v : ℚ)))

/-- Total severity rank of a mandatory-metric assignment (0 = the globally
most severe vector). -/
def totalRank (m : MandatoryMetrics) : ℕ :=
  avRank m.av + acRank m.ac + atRank m.atr + prRank m.pr + uiRank m.ui +
  impactRank m.vc + impactRank m.vi + impactRank m.va +
  impactRank m.sc + impactRank m.si + impactRank m.sa

/-- Modelled from the spec: a representative concrete instance of the
expert-curated reference table (the source documents the table's shape
and role but does not enumerate its data — spec 4.2 and 9). -/
def defaultClassTable : ClassTable where
  classify m := totalRank m / 3
  ceilingScore k := clamp10 (10 - (k : ℚ))
  stepSize _ := 1/10
  worstCase _ := ⟨.N, .L, .N, .N, .N, .H, .H, .H, .H, .H, .H⟩

/-! ### AssessmentReportBuilder -/

/-- The fixed category taxonomy: the ten OWASP Agentic AI Core risk
categories, in documented rank order (methodology document 4.2.1–4.2.10). -/
inductive CategoryId where
  | agenticAiToolMisuse
  | agentAccessControlViolation
  | agentCascadingFailures
  | agentOrchestrationExploitation
  | agentIdentityImpersonation
  | agentMemoryContextManipulation
  | insecureAgentCriticalSystemsInteraction
  | agentSupplyChainDependencyAttacks
  | agentUntraceability
  | agentGoalInstructionManipulation
  deriving DecidableEq, Fintype

/-- Fixed taxonomy declaration order of a category. -/
def taxOrder : CategoryId → ℕ
  | .agenticAiToolMisuse => 0
  | .agentAccessControlViolation => 1
  | .agentCascadingFailures => 2
  | .agentOrchestrationExploitation => 3
  | .agentIdentityImpersonation => 4
  | .agentMemoryContextManipulation => 5
  | .insecureAgentCriticalSystemsInteraction => 6
  | .agentSupplyChainDependencyAttacks => 7
  | .agentUntraceability => 8
  | .agentGoalInstructionManipulation => 9

/-- The ten category identifiers in taxonomy declaration order. -/
def allCategories : List CategoryId :=
  [.agenticAiToolMisuse, .agentAccessControlViolation,
   .agentCascadingFailures, .agentOrchestrationExploitation,
   .agentIdentityImpersonation, .agentMemoryContextManipulation,
   .insecureAgentCriticalSystemsInteraction,
   .agentSupplyChainDependencyAttacks, .agentUntraceability,
   .agentGoalInstructionManipulation]

/-- Modelled from the spec: one per-category assessment — category
identifier, base-severity assessment (score, vector, rationale), composite
score with rating, and composite vector text (spec section 3). -/
structure CategoryAssessment where
  category : CategoryId
  baseScore : ℚ
  baseVector : List Char
  rationale : String
  composite : ℚ
  rating : QualitativeRating
  compositeVector : String
  deriving DecidableEq

/-- Modelled from the spec: required report metadata (spec section 3). -/
structure ReportMetadata where
  assessmentId : String
  assessmentDate : String
  assessorName : String
  agentName : String
  agentDescription : Option String
  deriving DecidableEq

/-- Modelled from the spec: validation errors of the report builder
(spec 4.6). -/
inductive BuildError where
  | CategoryCountError
  | DuplicateCategoryError
  | MissingFactorError
  deriving DecidableEq

/-- Modelled from the spec: a validated assessment report — metadata, the
agent-level factor breakdown, and exactly ten category assessments
(spec section 3). -/
structure AssessmentReport where
  metadata : ReportMetadata
  factorScores : FactorName → Option ℚ
  assessments : List CategoryAssessment

/-- Modelled from the spec: `build` validates that the category
assessments have length exactly 10 (`CategoryCountError`, never padding
missing categories), carry no duplicate category identifier
(`DuplicateCategoryError`), and that the agent factor mapping supplies all
ten named factors (`MissingFactorError`) (spec 4.6). -/
def AssessmentReportBuilder.build (md : ReportMetadata)
    (factors : FactorName → Option ℚ) (cats : List CategoryAssessment) :
    Except BuildError AssessmentReport :=
  if cats.length ≠ 10 then .error .CategoryCountError
  else if ¬ (cats.map (fun a => a.category)).Nodup then
    .error .DuplicateCategoryError
  else if ∃ n ∈ factorList, factors n = Option.none then
    .error .MissingFactorError
  else .ok ⟨md, factors, cats⟩

/-- Modelled from the spec: the ranking comparison — CompositeScore
descending, then base-severity score descending, then fixed taxonomy
declaration order ascending (spec 4.6). -/
def rankRel (a b : CategoryAssessment) : Prop :=
  b.composite < a.composite ∨
    (a.composite = b.composite ∧
      (b.baseScore < a.baseScore ∨
        (a.baseScore = b.baseScore ∧ taxOrder a.category ≤ taxOrder b.category)))

instance : DecidableRel rankRel := fun a b => by
  unfold rankRel; infer_instance

/-- The report's assessments in rank order. -/
def rankedAssessments (r : AssessmentReport) : List CategoryAssessment :=
  List.insertionSort rankRel r.assessments

/-- Modelled from the spec: `rank` returns the ordered sequence of
category identifiers (spec 4.6). -/
def AssessmentReportBuilder.rank (r : AssessmentReport) : List CategoryId :=
  (rankedAssessments r).map (fun a => a.category)

/-! ### Appendix A report JSON schema (from the source document) -/

/-- The `agenticRiskScore` object of the Appendix A schema: a
`finalAarsScore` number and the ten factor-score numbers. -/
structure JsonAgenticRiskScore where
  finalAarsScore : ℚ
  autonomyOfAction : ℚ
  toolUse : ℚ
  memoryUse : ℚ
  dynamicIdentity : ℚ
  multiAgentInteractions : ℚ
  nonDeterminism : ℚ
  selfModification : ℚ
  goalDrivenPlanning : ℚ
  contextualAwareness : ℚ
  opacityAndReflexivity : ℚ

/-- One entry of `vulnerabilityAssessments` in the Appendix A schema. -/
structure JsonVulnerabilityAssessment where
  vulnerabilityName : String
  owaspRank : Option ℤ
  cvssBaseScore : ℚ
  cvssVectorString : String
  cvssRationale : Option String
  aivssFinalScore : ℚ
  aivssQualitativeRating : String
  aivssVector : String

/-- A report instance at the system boundary, shaped per Appendix A. -/
structure JsonReport where
  schemaVersion : String
  assessmentId : String
  assessmentDate : String
  assessorName : Option String
  agentName : String
  agentDescription : Option String
  agenticRiskScore : JsonAgenticRiskScore
  vulnerabilityAssessments : List JsonVulnerabilityAssessment

/-- The schema's constraint on the `agenticRiskScore` object
(`src/threat_list/owasp_top_10.md`, Appendix A): `finalAarsScore` is a
number with `minimum 0` and `maximum 10`, and each of the ten required
factor scores is drawn from the enumeration {0.0, 0.5, 1.0}; the schema
states no constraint linking `finalAarsScore` to the factor scores. -/
def schemaValidAgenticRiskScore (a : JsonAgenticRiskScore) : Prop :=
  0 ≤ a.finalAarsScore ∧ a.finalAarsScore ≤ 10 ∧
  validFactorValue a.autonomyOfAction ∧ validFactorValue a.toolUse ∧
  validFactorValue a.memoryUse ∧ validFactorValue a.dynamicIdentity ∧
  validFactorValue a.multiAgentInteractions ∧
  validFactorValue a.nonDeterminism ∧ validFactorValue a.selfModification ∧
  validFactorValue a.goalDrivenPlanning ∧
  validFactorValue a.contextualAwareness ∧
  validFactorValue a.opacityAndReflexivity

/-- The schema's constraint on one `vulnerabilityAssessments` item:
required fields present and `qualitativeRating` in its enumeration; the
schema places no numeric bounds on `finalScore` or `baseScore`. -/
def schemaValidVulnItem (i : JsonVulnerabilityAssessment) : Prop :=
  i.aivssQualitativeRating = "None" ∨ i.aivssQualitativeRating = "Low" ∨
  i.aivssQualitativeRating = "Medium" ∨ i.aivssQualitativeRating = "High" ∨
  i.aivssQualitativeRating = "Critical"

/-- Validation of a boundary report against the Appendix A schema:
required top-level fields (presence is encoded by the record type, with
JSON-optional fields as `Option`), the `agenticRiskScore` constraints,
and `vulnerabilityAssessments` with `minItems` = `maxItems` = 10 and
item-level constraints. -/
def schemaValidReport (r : JsonReport) : Prop :=
  schemaValidAgenticRiskScore r.agenticRiskScore ∧
  r.vulnerabilityAssessments.length = 10 ∧
  ∀ i ∈ r.vulnerabilityAssessments, schemaValidVulnItem i

/-- Sum of the ten factor scores of an `agenticRiskScore` object. -/
def jsonFactorSum (a : JsonAgenticRiskScore) : ℚ :=
  a.autonomyOfAction + a.toolUse + a.memoryUse + a.dynamicIdentity +
  a.multiAgentInteractions + a.nonDeterminism + a.selfModification +
  a.goalDrivenPlanning + a.contextualAwareness + a.opacityAndReflexivity

/-- Does an `Except` hold a success value? -/
def exceptOk {ε α : Type} : Except ε α → Bool
  | .ok _ => true
  | .error _ => false

/-- A parsed `code:value` pair is valid when its code is recognized and
its value text parses under that code's enumeration. -/
def validPair (q : List Char × List Char) : Bool :=
  if q.1 = avCode then exceptOk (parseAv q.2)
  else if q.1 = acCode then exceptOk (parseAc q.2)
  else if q.1 = atCode then exceptOk (parseAt q.2)
  else if q.1 = prCode then exceptOk (parsePr q.2)
  else if q.1 = uiCode then exceptOk (parseUi q.2)
  else if q.1 = vcCode then exceptOk (parseImpact q.2)
  else if q.1 = viCode then exceptOk (parseImpact q.2)
  else if q.1 = vaCode then exceptOk (parseImpact q.2)
  else if q.1 = scCode then exceptOk (parseImpact q.2)
  else if q.1 = siCode then exceptOk (parseImpact q.2)
  else if q.1 = saCode then exceptOk (parseImpact q.2)
  else if q.1 = eCode then exceptOk (parseEv q.2)
  else false

/-! ### Concrete fixtures used by the closed evaluation theorems -/

/-- The factor assignment of the methodology document's worked JSON
example (sum 6.5). -/
def exampleFactors : FactorName → Option ℚ
  | .autonomyOfAction => Option.some 1
  | .toolUse => Option.some 1
  | .memoryUse => Option.some (1/2)
  | .dynamicIdentity => Option.some 1
  | .multiAgentInteractions => Option.some 0
  | .nonDeterminism => Option.some (1/2)
  | .selfModification => Option.some 0
  | .goalDrivenPlanning => Option.some 1
  | .contextualAwareness => Option.some 1
  | .opacityAndReflexivity => Option.some (1/2)

/-- A vector text carrying a recognized code with an out-of-enumeration
value (`AV:Z`). -/
def invalidValueText : List Char :=
  "CVSS:4.0/AV:Z/AC:L/AT:N/PR:N/UI:N/VC:H/VI:H/VA:H/SC:N/SI:N/SA:N".toList

/-- A valid vector text in a non-canonical metric ordering (AC before
AV). -/
def nonCanonicalText : List Char :=
  "CVSS:4.0/AC:L/AV:N/AT:N/PR:N/UI:N/VC:H/VI:H/VA:H/SC:N/SI:N/SA:N".toList

/-- The severity vector denoted by `nonCanonicalText`. -/
def exampleVector : SeverityVector :=
  ⟨⟨.N, .L, .N, .N, .N, .H, .H, .H, .N, .N, .N⟩, Option.none⟩

/-- A vector one metric step less severe than the global worst case, with
no optional group. -/
def stepVector : SeverityVector :=
  ⟨⟨.A, .L, .N, .N, .N, .H, .H, .H, .H, .H, .H⟩, Option.none⟩

/-- The same mandatory metrics as `stepVector` with an optional Exploit
Maturity metric present. -/
def stepVectorWithE : SeverityVector :=
  ⟨⟨.A, .L, .N, .N, .N, .H, .H, .H, .H, .H, .H⟩, Option.some .A⟩

/-- Concrete report metadata for the evaluation theorems. -/
def exampleMetadata : ReportMetadata :=
  ⟨"d4a5b6f1", "2024-10-27T10:00:00Z", "Corporate Security Team",
   "EnterpriseHelpdeskBot-v2.1", Option.none⟩

/-- A category assessment fixture with the given category, base score and
composite score. -/
def mkAssessment (c : CategoryId) (b comp : ℚ) : CategoryAssessment :=
  ⟨c, b, [], "", comp, qualitativeRating comp, ""⟩

/-- Ten category assessments, one per taxonomy category, carrying the
composite scores of the methodology document's final ranking table. -/
def exampleAssessments : List CategoryAssessment :=
  [mkAssessment .agenticAiToolMisuse (94/10) (87/10),
   mkAssessment .agentAccessControlViolation (87/10) (76/10),
   mkAssessment .agentCascadingFailures (71/10) (71/10),
   mkAssessment .agentOrchestrationExploitation (83/10) (72/10),
   mkAssessment .agentIdentityImpersonation (74/10) (63/10),
   mkAssessment .agentMemoryContextManipulation (58/10) (57/10),
   mkAssessment .insecureAgentCriticalSystemsInteraction (69/10) (58/10),
   mkAssessment .agentSupplyChainDependencyAttacks (93/10) (5),
   mkAssessment .agentUntraceability (53/10) (48/10),
   mkAssessment .agentGoalInstructionManipulation (21/10) (3)]

/-- An `agenticRiskScore` object whose `finalAarsScore` (0) is not the sum
of its factor scores (all 1.0, summing to 10). -/
def mismatchedRiskScore : JsonAgenticRiskScore :=
  ⟨0, 1, 1, 1, 1, 1, 1, 1, 1, 1, 1⟩

/-- A vulnerability-assessment item fixture from the worked JSON example. -/
def exampleVulnItem : JsonVulnerabilityAssessment :=
  ⟨"Agentic AI Tool Misuse", Option.some 1, 94/10,
   "CVSS:4.0/AV:N/AC:L/AT:N/PR:N/UI:A/VC:H/VI:H/VA:H/SC:H/SI:H/SA:H",
   Option.none, 82/10, "High", "(CVSS:9.4/AARS:7.5)"⟩

/-- A boundary report that the Appendix A schema accepts although its
`finalAarsScore` differs from the sum of its factor scores. -/
def permissiveReport : JsonReport :=
  ⟨"1.0", "d4a5b6f1", "2024-10-27T10:00:00Z",
   Option.some "Corporate Security Team", "EnterpriseHelpdeskBot-v2.1",
   Option.none, mismatchedRiskScore, List.replicate 10 exampleVulnItem⟩

/-- Values used by the aggregate evaluation theorem. -/
def exampleFactorValues : FactorName → ℚ := fun fn => (exampleFactors fn).getD 0

/-- The example factor assignment wrapped in `Option.some`. -/
def exampleFactorsSome : FactorName → Option ℚ :=
  fun fn => Option.some (exampleFactorValues fn)

/-! ## Helper lemmas -/

theorem clamp10_nonneg (x : ℚ) : 0 ≤ clamp10 x := le_max_left 0 _

theorem clamp10_le_ten (x : ℚ) : clamp10 x ≤ 10 := by
  unfold clamp10
  rcases le_total 0 (min 10 x) with h | h
  · rw [max_eq_right h]; exact min_le_left _ _
  · rw [max_eq_left h]; norm_num

theorem round1_clamp10_bounds (x : ℚ) :
    0 ≤ round1 (clamp10 x) ∧ round1 (clamp10 x) ≤ 10 := by
  have h0 := clamp10_nonneg x
  have h10 := clamp10_le_ten x
  constructor
  · unfold round1
    have hz : (0 : ℤ) ≤ ⌊clamp10 x * 10 + 1/2⌋ :=
      Int.floor_nonneg.mpr (by linarith)
    have hq : (0 : ℚ) ≤ ((⌊clamp10 x * 10 + 1/2⌋ : ℤ) : ℚ) := by
      exact_mod_cast hz
    exact div_nonneg hq (by norm_num)
  · unfold round1
    have h1 : ⌊clamp10 x * 10 + 1/2⌋ ≤ ⌊(201/2 : ℚ)⌋ :=
      Int.floor_le_floor (by linarith)
    have h2 : ⌊(201/2 : ℚ)⌋ = 100 := by
      rw [Int.floor_eq_iff]
      norm_num
    rw [h2] at h1
    have : ((⌊clamp10 x * 10 + 1/2⌋ : ℤ) : ℚ) ≤ 100 := by exact_mod_cast h1
    linarith

/-! ## C1: CompositeScorer.score -/

/-- C1: for inputs with `baseSeverity` and `aars` in [0,10] and
`threatMultiplier` in [0,1], `CompositeScorer.score` returns
`((baseSeverity + aars) / 2) * threatMultiplier` clamped to [0,10] and
rounded to one decimal (fixtures: 9.4/8.5/0.97 ↦ 8.7, 2.1/4.0/0.97 ↦ 3.0,
9.3/1.0/0.97 ↦ 5.0); inputs with `baseSeverity` or `aars` outside [0,10]
fail with `OutOfRangeInputError` instead of being clamped. -/
theorem composite_score_spec :
    (∀ b a t : ℚ, 0 ≤ b → b ≤ 10 → 0 ≤ a → a ≤ 10 → 0 ≤ t → t ≤ 1 →
      CompositeScorer.score b a t = .ok (round1 (clamp10 ((b + a) / 2 * t)))) ∧
    CompositeScorer.score (94/10) (85/10) (97/100) = .ok (87/10) ∧
    CompositeScorer.score (21/10) 4 (97/100) = .ok 3 ∧
    CompositeScorer.score (93/10) 1 (97/100) = .ok 5 ∧
    (∀ b a t : ℚ, b < 0 ∨ 10 < b ∨ a < 0 ∨ 10 < a →
      CompositeScorer.score b a t = .error .OutOfRangeInputError) := by
  refine ⟨?_,
    by norm_num [CompositeScorer.score, clamp10, round1, Int.floor_eq_iff],
    by norm_num [CompositeScorer.score, clamp10, round1, Int.floor_eq_iff],
    by norm_num [CompositeScorer.score, clamp10, round1, Int.floor_eq_iff], ?_⟩
  · intro b a t hb0 hb1 ha0 ha1 _ _
    unfold CompositeScorer.score
    rw [if_neg (by push_neg; exact ⟨hb0, hb1, ha0, ha1⟩)]
  · intro b a t h
    unfold CompositeScorer.score
    rw [if_pos h]

/-- C1 witness: the theorem applied at the 9.4/8.5/0.97 fixture. -/
theorem composite_score_spec_witness :
    CompositeScorer.score (94/10) (85/10) (97/100) =
      .ok (round1 (clamp10 ((94/10 + 85/10) / 2 * (97/100)))) :=
  composite_score_spec.1 (94/10) (85/10) (97/100) (by norm_num) (by norm_num)
    (by norm_num) (by norm_num) (by norm_num) (by norm_num)

/-! ## C2: qualitative rating bands -/

/-- C2: over one-decimal scores `n/10` with `n ≤ 100`, the rating is None
iff the score is 0.0, Low iff it lies in 0.1–3.9, Medium iff in 4.0–6.9,
High iff in 7.0–8.9 and Critical iff in 9.0–10.0 (so the five bands are
exhaustive and mutually exclusive), with the boundary fixtures 4.0 ↦
Medium, 3.9 ↦ Low, 9.0 ↦ Critical, 8.9 ↦ High and 0.0 ↦ None. -/
theorem qualitative_rating_bands :
    (∀ n : ℕ, n ≤ 100 →
      ((qualitativeRating ((n : ℚ) / 10) = .none ↔ n = 0) ∧
       (qualitativeRating ((n : ℚ) / 10) = .low ↔ 1 ≤ n ∧ n ≤ 39) ∧
       (qualitativeRating ((n : ℚ) / 10) = .medium ↔ 40 ≤ n ∧ n ≤ 69) ∧
       (qualitativeRating ((n : ℚ) / 10) = .high ↔ 70 ≤ n ∧ n ≤ 89) ∧
       (qualitativeRating ((n : ℚ) / 10) = .critical ↔ 90 ≤ n ∧ n ≤ 100))) ∧
    qualitativeRating 4 = .medium ∧ qualitativeRating (39/10) = .low ∧
    qualitativeRating 9 = .critical ∧ qualitativeRating (89/10) = .high ∧
    qualitativeRating 0 = .none := by
  refine ⟨?_, by norm_num [qualitativeRating], by norm_num [qualitativeRating],
    by norm_num [qualitativeRating], by norm_num [qualitativeRating],
    by norm_num [qualitativeRating]⟩
  intro n hn
  have e0 : ((n : ℚ) / 10 = 0) ↔ n = 0 := by
    constructor
    · intro h
      have h1 : (n : ℚ) = 0 := by linarith
      exact_mod_cast h1
    · rintro rfl
      norm_num
  have key : ∀ m : ℕ, ((n : ℚ) / 10 ≤ (m : ℚ) / 10) ↔ n ≤ m := by
    intro m
    constructor
    · intro h
      have h1 : (n : ℚ) ≤ (m : ℚ) := by linarith
      exact_mod_cast h1
    · intro h
      have h1 : (n : ℚ) ≤ (m : ℚ) := by exact_mod_cast h
      linarith
  have e39 := key 39
  have e69 := key 69
  have e89 := key 89
  push_cast at e39 e69 e89
  unfold qualitativeRating
  split_ifs with h1 h2 h3 h4
  · have hz := e0.mp h1
    refine ⟨?_, ?_, ?_, ?_, ?_⟩ <;> simp <;> omega
  · have hz : ¬ n = 0 := fun h => h1 (e0.mpr h)
    have hb := e39.mp h2
    refine ⟨?_, ?_, ?_, ?_, ?_⟩ <;> simp <;> omega
  · have hz : ¬ n = 0 := fun h => h1 (e0.mpr h)
    have ha : ¬ n ≤ 39 := fun h => h2 (e39.mpr h)
    have hb := e69.mp h3
    refine ⟨?_, ?_, ?_, ?_, ?_⟩ <;> simp <;> omega
  · have hz : ¬ n = 0 := fun h => h1 (e0.mpr h)
    have ha : ¬ n ≤ 69 := fun h => h3 (e69.mpr h)
    have hb := e89.mp h4
    refine ⟨?_, ?_, ?_, ?_, ?_⟩ <;> simp <;> omega
  · have hz : ¬ n = 0 := fun h => h1 (e0.mpr h)
    have ha : ¬ n ≤ 89 := fun h => h4 (e89.mpr h)
    refine ⟨?_, ?_, ?_, ?_, ?_⟩ <;> simp <;> omega

/-- C2 witness: the band theorem applied at the tenths value 40. -/
theorem qualitative_rating_bands_witness :
    qualitativeRating (((40 : ℕ) : ℚ) / 10) = .medium :=
  ((qualitative_rating_bands.1 40 (by norm_num)).2.2.1).mpr (by norm_num)

/-! ## C3: FactorAggregator.aggregate -/

/-- C3: for any assignment of the ten named factors to values in
{0.0, 0.5, 1.0} the aggregator succeeds with exactly the arithmetic sum,
which lies in [0,10] (and the worked example sums to 6.5); it fails with
`MissingFactorError` when a factor is absent and with
`InvalidFactorValueError` when a present value is outside the
enumeration. -/
theorem aggregate_spec :
    (∀ g : FactorName → ℚ, (∀ fn, validFactorValue (g fn)) →
      (FactorAggregator.aggregate (fun fn => Option.some (g fn)) =
        .ok ((factorList.map g).sum) ∧
       0 ≤ (factorList.map g).sum ∧ (factorList.map g).sum ≤ 10)) ∧
    FactorAggregator.aggregate exampleFactors = .ok (13/2) ∧
    (∀ f : FactorName → Option ℚ, (∃ fn ∈ factorList, f fn = Option.none) →
      FactorAggregator.aggregate f = .error .MissingFactorError) ∧
    (∀ f : FactorName → Option ℚ, (∀ fn, (f fn).isSome) →
      (∃ fn ∈ factorList, ¬ validFactorValue ((f fn).getD 0)) →
      FactorAggregator.aggregate f = .error .InvalidFactorValueError) := by
  refine ⟨?_, ?_, ?_, ?_⟩
  · intro g hg
    have hmem : ∀ x ∈ factorList.map g, 0 ≤ x ∧ x ≤ 1 := by
      intro x hx
      obtain ⟨fn, _, rfl⟩ := List.mem_map.mp hx
      rcases hg fn with h | h | h <;> rw [h] <;> norm_num
    refine ⟨?_, ?_, ?_⟩
    · unfold FactorAggregator.aggregate
      rw [if_neg, if_neg]
      · simp
      · rintro ⟨fn, _, hfn⟩
        exact hfn (by simpa using hg fn)
      · rintro ⟨fn, _, hfn⟩
        exact Option.noConfusion hfn
    · exact List.sum_nonneg fun x hx => (hmem x hx).1
    · have h := List.sum_le_card_nsmul (factorList.map g) 1
        fun x hx => (hmem x hx).2
      have hlen : (factorList.map g).length = 10 := by simp [factorList]
      rw [hlen] at h
      simpa using h
  · norm_num [FactorAggregator.aggregate, exampleFactors, factorList,
      validFactorValue]
    rintro (h | h | h | h | h | h | h | h) <;> cases h
  · intro f hf
    unfold FactorAggregator.aggregate
    rw [if_pos hf]
  · intro f hsome hbad
    unfold FactorAggregator.aggregate
    rw [if_neg, if_pos hbad]
    rintro ⟨fn, _, hfn⟩
    have hs := hsome fn
    rw [hfn] at hs
    simp at hs

/-- C3 witness: the aggregator evaluated at the worked example's factor
values. -/
theorem aggregate_spec_witness :
    FactorAggregator.aggregate exampleFactorsSome =
      .ok ((factorList.map exampleFactorValues).sum) ∧
    0 ≤ (factorList.map exampleFactorValues).sum ∧
    (factorList.map exampleFactorValues).sum ≤ 10 :=
  aggregate_spec.1 exampleFactorValues
    (by intro fn
        cases fn <;>
          norm_num [exampleFactorValues, exampleFactors, validFactorValue])

/-! ## C7: ThreatMultiplierResolver.resolve -/

/-- C7: the resolver returns the default 0.97 when no exploit-maturity
signal is supplied; a supplied signal maps through the fixed table, with
"actively attacked" resolving to the ceiling 1.0; and a raw override
succeeds returning its value exactly when it lies in [0,1], failing with
`OutOfRangeMultiplierError` otherwise. -/
theorem resolve_spec :
    ThreatMultiplierResolver.resolve .noSignal = .ok (97/100) ∧
    (∀ s, ThreatMultiplierResolver.resolve (.signal s) = .ok (signalTable s)) ∧
    signalTable .activelyAttacked = 1 ∧
    (∀ m : ℚ, 0 ≤ m → m ≤ 1 →
      ThreatMultiplierResolver.resolve (.raw m) = .ok m) ∧
    (∀ m v : ℚ, ThreatMultiplierResolver.resolve (.raw m) = .ok v →
      v = m ∧ 0 ≤ m ∧ m ≤ 1) ∧
    (∀ m : ℚ, ¬ (0 ≤ m ∧ m ≤ 1) →
      ThreatMultiplierResolver.resolve (.raw m) =
        .error .OutOfRangeMultiplierError) := by
  refine ⟨rfl, fun s => rfl, rfl, ?_, ?_, ?_⟩
  · intro m h0 h1
    simp only [ThreatMultiplierResolver.resolve]
    rw [if_pos ⟨h0, h1⟩]
  · intro m v h
    simp only [ThreatMultiplierResolver.resolve] at h
    by_cases hc : 0 ≤ m ∧ m ≤ 1
    · rw [if_pos hc] at h
      cases h
      exact ⟨rfl, hc⟩
    · rw [if_neg hc] at h
      exact Except.noConfusion h
  · intro m h
    simp only [ThreatMultiplierResolver.resolve]
    rw [if_neg h]

/-- C7 witness: the resolver applied to the in-range raw override 0.5 and
evaluated on the ceiling signal. -/
theorem resolve_spec_witness :
    ThreatMultiplierResolver.resolve (.raw (1/2)) = .ok (1/2) :=
  resolve_spec.2.2.2.1 (1/2) (by norm_num) (by norm_num)

/-! ## C10: Appendix A schema does not link finalAarsScore to the factors -/

/-- C10: the Appendix A report schema accepts a report whose
`finalAarsScore` is not the sum of its ten factor scores — the schema
constrains `finalAarsScore` only to [0,10] and each factor only to
{0.0, 0.5, 1.0}, with no linking constraint. -/
theorem schema_accepts_aars_mismatch :
    schemaValidReport permissiveReport ∧
    permissiveReport.agenticRiskScore.finalAarsScore ≠
      jsonFactorSum permissiveReport.agenticRiskScore := by
  constructor
  · refine ⟨?_, ?_, ?_⟩
    · norm_num [permissiveReport, mismatchedRiskScore,
        schemaValidAgenticRiskScore, validFactorValue]
    · simp [permissiveReport]
    · intro i hi
      have he : i = exampleVulnItem := by
        simpa [permissiveReport, List.mem_replicate] using hi
      rw [he]
      simp [schemaValidVulnItem, exampleVulnItem]
  · norm_num [permissiveReport, mismatchedRiskScore, jsonFactorSum]

/-! ## C4: SeverityClassifier.score -/

/-- C4: for every table and vector, the classifier score equals the
class's ceiling score minus its step size times the number of
mandatory-metric positions strictly less severe than the class's worst
case, clamped to [0,10] and rounded to one decimal; the score is a
function of the mandatory metrics only, so vectors agreeing on them score
identically regardless of optional-group content. -/
theorem classifier_score_spec :
    (∀ (tbl : ClassTable) (v : SeverityVector),
      SeverityClassifier.score tbl v =
        round1 (clamp10
          (tbl.ceilingScore (tbl.classify v.mand) -
            tbl.stepSize (tbl.classify v.mand) *
              (lessSevereCount v.mand
                (tbl.worstCase (tbl.classify v.mand)) : ℚ)))) ∧
    (∀ (tbl : ClassTable) (v w : SeverityVector), v.mand = w.mand →
      SeverityClassifier.score tbl v = SeverityClassifier.score tbl w) ∧
    (∀ (tbl : ClassTable) (v : SeverityVector),
      0 ≤ SeverityClassifier.score tbl v ∧
        SeverityClassifier.score tbl v ≤ 10) := by
  refine ⟨fun tbl v => rfl, ?_, ?_⟩
  · intro tbl v w h
    unfold SeverityClassifier.score SeverityClassifier.distance
    rw [h]
  · intro tbl v
    exact round1_clamp10_bounds _

/-- C4 witness: the theorem applied to `stepVector` and
`stepVectorWithE`, which differ only in the optional group, together with
the evaluated score under the representative table. -/
theorem classifier_score_spec_witness :
    SeverityClassifier.score defaultClassTable stepVector =
      SeverityClassifier.score defaultClassTable stepVectorWithE ∧
    SeverityClassifier.score defaultClassTable stepVector = 99/10 :=
  ⟨classifier_score_spec.2.1 defaultClassTable stepVector stepVectorWithE rfl,
   by norm_num [SeverityClassifier.score, SeverityClassifier.distance,
     defaultClassTable, stepVector, lessSevereCount, totalRank, clamp10,
     round1, avRank, acRank, atRank, prRank, uiRank, impactRank,
     Int.floor_eq_iff]⟩

/-! ## C8: AssessmentReportBuilder.build shape validation -/

theorem build_ok_facts {md : ReportMetadata} {factors : FactorName → Option ℚ}
    {cats : List CategoryAssessment} {r : AssessmentReport}
    (h : AssessmentReportBuilder.build md factors cats = .ok r) :
    cats.length = 10 ∧ (cats.map fun a => a.category).Nodup ∧
      r.assessments = cats := by
  unfold AssessmentReportBuilder.build at h
  by_cases h1 : cats.length ≠ 10
  · rw [if_pos h1] at h
    exact Except.noConfusion h
  · rw [if_neg h1] at h
    by_cases h2 : ¬ (cats.map fun a => a.category).Nodup
    · rw [if_pos h2] at h
      exact Except.noConfusion h
    · rw [if_neg h2] at h
      by_cases h3 : ∃ n ∈ factorList, factors n = Option.none
      · rw [if_pos h3] at h
        exact Except.noConfusion h
      · rw [if_neg h3] at h
        cases h
        exact ⟨not_not.mp h1, not_not.mp h2, rfl⟩

theorem coverage_of_nodup {l : List CategoryId} (hlen : l.length = 10)
    (hnd : l.Nodup) : l.toFinset = Finset.univ := by
  apply Finset.eq_univ_of_card
  rw [List.toFinset_card_of_nodup hnd, hlen]
  rfl

/-- C8: building a report fails with `CategoryCountError` whenever the
supplied assessments do not number exactly 10 (no padding with defaults),
fails with `DuplicateCategoryError` whenever two assessments share a
category identifier, and a report is produced only when the ten
assessments cover the taxonomy with exactly one assessment per
category. -/
theorem build_shape_spec :
    (∀ (md : ReportMetadata) (factors : FactorName → Option ℚ)
       (cats : List CategoryAssessment), cats.length ≠ 10 →
      AssessmentReportBuilder.build md factors cats =
        .error .CategoryCountError) ∧
    (∀ (md : ReportMetadata) (factors : FactorName → Option ℚ)
       (cats : List CategoryAssessment), cats.length = 10 →
      ¬ (cats.map fun a => a.category).Nodup →
      AssessmentReportBuilder.build md factors cats =
        .error .DuplicateCategoryError) ∧
    (∀ (md : ReportMetadata) (factors : FactorName → Option ℚ)
       (cats : List CategoryAssessment) (r : AssessmentReport),
      AssessmentReportBuilder.build md factors cats = .ok r →
      cats.length = 10 ∧ (cats.map fun a => a.category).Nodup ∧
        (∀ c : CategoryId, c ∈ cats.map fun a => a.category) ∧
        r.assessments = cats) := by
  refine ⟨?_, ?_, ?_⟩
  · intro md factors cats h
    unfold AssessmentReportBuilder.build
    rw [if_pos h]
  · intro md factors cats h1 h2
    unfold AssessmentReportBuilder.build
    rw [if_neg (by simp [h1]), if_pos h2]
  · intro md factors cats r h
    obtain ⟨hlen, hnd, hassess⟩ := build_ok_facts h
    refine ⟨hlen, hnd, ?_, hassess⟩
    intro c
    have hcov := coverage_of_nodup (l := cats.map fun a => a.category)
      (by rw [List.length_map, hlen]) hnd
    rw [← List.mem_toFinset, hcov]
    exact Finset.mem_univ c

/-- C8 witness: building with 9 assessments fails with
`CategoryCountError`, and building with a duplicated category fails with
`DuplicateCategoryError`. -/
theorem build_shape_spec_witness :
    AssessmentReportBuilder.build exampleMetadata exampleFactors
        (exampleAssessments.take 9) = .error .CategoryCountError ∧
    AssessmentReportBuilder.build exampleMetadata exampleFactors
        (exampleAssessments.take 1 ++ exampleAssessments.take 9) =
      .error .DuplicateCategoryError :=
  ⟨build_shape_spec.1 exampleMetadata exampleFactors (exampleAssessments.take 9)
      (by simp [exampleAssessments]),
   build_shape_spec.2.1 exampleMetadata exampleFactors
      (exampleAssessments.take 1 ++ exampleAssessments.take 9)
      (by simp [exampleAssessments])
      (by simp [exampleAssessments, mkAssessment])⟩

/-! ## C9: AssessmentReportBuilder.rank -/

theorem rankRel_total : ∀ a b, rankRel a b ∨ rankRel b a := by
  intro a b
  rcases lt_trichotomy a.composite b.composite with h | h | h
  · right; left; exact h
  · rcases lt_trichotomy a.baseScore b.baseScore with h2 | h2 | h2
    · right; right; exact ⟨h.symm, Or.inl h2⟩
    · rcases Nat.le_total (taxOrder a.category) (taxOrder b.category) with h3 | h3
      · left; right; exact ⟨h, Or.inr ⟨h2, h3⟩⟩
      · right; right; exact ⟨h.symm, Or.inr ⟨h2.symm, h3⟩⟩
    · left; right; exact ⟨h, Or.inl h2⟩
  · left; left; exact h

theorem rankRel_trans : ∀ a b c, rankRel a b → rankRel b c → rankRel a c := by
  intro a b c hab hbc
  rcases hab with h1 | ⟨e1, h1⟩
  · rcases hbc with h2 | ⟨e2, h2⟩
    · left; exact lt_trans h2 h1
    · left; rw [← e2]; exact h1
  · rcases hbc with h2 | ⟨e2, h2⟩
    · left; rw [e1]; exact h2
    · refine Or.inr ⟨e1.trans e2, ?_⟩
      rcases h1 with hb1 | ⟨eb1, ht1⟩
      · rcases h2 with hb2 | ⟨eb2, ht2⟩
        · left; exact lt_trans hb2 hb1
        · left; rw [← eb2]; exact hb1
      · rcases h2 with hb2 | ⟨eb2, ht2⟩
        · left; rw [eb1]; exact hb2
        · exact Or.inr ⟨eb1.trans eb2, le_trans ht1 ht2⟩

theorem taxOrder_inj : ∀ c d : CategoryId, taxOrder c = taxOrder d → c = d := by
  decide

theorem rankRel_antisymm_cat :
    ∀ a b, rankRel a b → rankRel b a → a.category = b.category := by
  intro a b hab hba
  rcases hab with h1 | ⟨e1, h1⟩
  · rcases hba with h2 | ⟨e2, h2⟩
    · exact absurd h1 (lt_asymm h2)
    · rw [e2] at h1
      exact absurd h1 (lt_irrefl _)
  · rcases hba with h2 | ⟨e2, h2⟩
    · rw [e1] at h2
      exact absurd h2 (lt_irrefl _)
    · rcases h1 with hb1 | ⟨eb1, ht1⟩
      · rcases h2 with hb2 | ⟨eb2, ht2⟩
        · exact absurd hb1 (lt_asymm hb2)
        · rw [eb2] at hb1
          exact absurd hb1 (lt_irrefl _)
      · rcases h2 with hb2 | ⟨eb2, ht2⟩
        · rw [eb1] at hb2
          exact absurd hb2 (lt_irrefl _)
        · exact taxOrder_inj _ _ (le_antisymm ht1 ht2)

/-- C9: for every report produced by `build`, `rank` returns a
permutation of the ten category identifiers sorted by the ranking
comparison (composite descending, then base severity descending, then
taxonomy order ascending); the comparison is total, two assessments
related both ways share a category (so distinct categories never tie
fully), and ranking equal reports yields identical sequences. -/
theorem rank_spec :
    (∀ (md : ReportMetadata) (factors : FactorName → Option ℚ)
       (cats : List CategoryAssessment) (r : AssessmentReport),
      AssessmentReportBuilder.build md factors cats = .ok r →
      (List.Perm (AssessmentReportBuilder.rank r) allCategories ∧
       List.Sorted rankRel (rankedAssessments r))) ∧
    (∀ a b, rankRel a b ∨ rankRel b a) ∧
    (∀ a b, rankRel a b → rankRel b a → a.category = b.category) ∧
    (∀ r₁ r₂ : AssessmentReport, r₁ = r₂ →
      AssessmentReportBuilder.rank r₁ = AssessmentReportBuilder.rank r₂) := by
  refine ⟨?_, rankRel_total, rankRel_antisymm_cat, fun r₁ r₂ h => by rw [h]⟩
  intro md factors cats r hb
  obtain ⟨hlen, hnd, hassess⟩ := build_ok_facts hb
  constructor
  · have p1 : List.Perm
        ((List.insertionSort rankRel r.assessments).map fun a => a.category)
        (r.assessments.map fun a => a.category) :=
      (List.perm_insertionSort rankRel r.assessments).map _
    have p2 : List.Perm (cats.map fun a => a.category) allCategories := by
      apply List.perm_of_nodup_nodup_toFinset_eq hnd (by decide)
      rw [coverage_of_nodup (by rw [List.length_map, hlen]) hnd]
      rw [coverage_of_nodup (l := allCategories) (by rfl) (by decide)]
    unfold AssessmentReportBuilder.rank rankedAssessments
    exact p1.trans (by rw [hassess]; exact p2)
  · haveI : IsTotal CategoryAssessment rankRel := ⟨rankRel_total⟩
    haveI : IsTrans CategoryAssessment rankRel := ⟨rankRel_trans⟩
    exact List.sorted_insertionSort rankRel _

/-- C9 witness: the ranking theorem applied to the report built from the
methodology document's ranking-table assessments. -/
theorem rank_spec_witness :
    List.Perm (AssessmentReportBuilder.rank
        ⟨exampleMetadata, exampleFactors, exampleAssessments⟩) allCategories ∧
    List.Sorted rankRel (rankedAssessments
        ⟨exampleMetadata, exampleFactors, exampleAssessments⟩) :=
  rank_spec.1 exampleMetadata exampleFactors exampleAssessments
    ⟨exampleMetadata, exampleFactors, exampleAssessments⟩ (by rfl)

/-! ## VectorCodec lemmas -/

theorem splitOnChar_ne_nil (c : Char) (l : List Char) : splitOnChar c l ≠ [] := by
  induction l with
  | nil => simp [splitOnChar]
  | cons x xs ih =>
    unfold splitOnChar
    cases h : splitOnChar c xs with
    | nil => simp
    | cons s ss => split_ifs <;> simp

theorem splitOnChar_no_delim {c : Char} {s : List Char} (h : c ∉ s) :
    splitOnChar c s = [s] := by
  induction s with
  | nil => rfl
  | cons x xs ih =>
    have hx : ¬ x = c := fun he => h (by rw [he]; exact List.mem_cons_self _ _)
    have hxs : c ∉ xs := fun hm => h (List.mem_cons_of_mem _ hm)
    unfold splitOnChar
    rw [ih hxs]
    simp [hx]

theorem splitOnChar_append_cons {c : Char} {s rest : List Char} (h : c ∉ s) :
    splitOnChar c (s ++ c :: rest) = s :: splitOnChar c rest := by
  induction s with
  | nil =>
    cases hr : splitOnChar c rest with
    | nil => exact absurd hr (splitOnChar_ne_nil c rest)
    | cons s0 ss =>
      simp only [List.nil_append, splitOnChar, hr]
      simp
  | cons x xs ih =>
    have hx : ¬ x = c := fun he => h (by rw [he]; exact List.mem_cons_self _ _)
    have hxs : c ∉ xs := fun hm => h (List.mem_cons_of_mem _ hm)
    simp only [List.cons_append, splitOnChar, ih hxs]
    simp only [hx, if_false, ite_false, List.append_eq]
    rw [ih hxs]

theorem splitOnChar_intercalate {c : Char} (ls : List (List Char))
    (hne : ls ≠ []) (hs : ∀ s ∈ ls, c ∉ s) :
    splitOnChar c (intercalateChar c ls) = ls := by
  induction ls with
  | nil => exact absurd rfl hne
  | cons s tail ih =>
    cases tail with
    | nil => exact splitOnChar_no_delim (hs s (by simp))
    | cons s' ss =>
      show splitOnChar c (s ++ c :: intercalateChar c (s' :: ss)) = _
      rw [splitOnChar_append_cons (hs s (by simp))]
      rw [ih (by simp) fun t ht => hs t (List.mem_cons_of_mem _ ht)]

theorem splitPair_mkTok {code val : List Char} (h1 : ':' ∉ code)
    (h2 : ':' ∉ val) : splitPair (mkTok code val) = .ok (code, val) := by
  unfold splitPair mkTok
  rw [splitOnChar_append_cons h1, splitOnChar_no_delim h2]

theorem noSlash_mkTok {code val : List Char} (h1 : '/' ∉ code)
    (h2 : '/' ∉ val) : '/' ∉ mkTok code val := by
  unfold mkTok
  simp only [List.mem_append, List.mem_cons]
  push_neg
  exact ⟨h1, by decide, h2⟩

theorem avStr_clean (x : AvVal) : ':' ∉ avStr x ∧ '/' ∉ avStr x := by
  cases x <;> exact ⟨by decide, by decide⟩

theorem acStr_clean (x : AcVal) : ':' ∉ acStr x ∧ '/' ∉ acStr x := by
  cases x <;> exact ⟨by decide, by decide⟩

theorem atStr_clean (x : AtVal) : ':' ∉ atStr x ∧ '/' ∉ atStr x := by
  cases x <;> exact ⟨by decide, by decide⟩

theorem prStr_clean (x : PrVal) : ':' ∉ prStr x ∧ '/' ∉ prStr x := by
  cases x <;> exact ⟨by decide, by decide⟩

theorem uiStr_clean (x : UiVal) : ':' ∉ uiStr x ∧ '/' ∉ uiStr x := by
  cases x <;> exact ⟨by decide, by decide⟩

theorem impactStr_clean (x : ImpactVal) : ':' ∉ impactStr x ∧ '/' ∉ impactStr x := by
  cases x <;> exact ⟨by decide, by decide⟩

theorem eStr_clean (x : EVal) : ':' ∉ eStr x ∧ '/' ∉ eStr x := by
  cases x <;> exact ⟨by decide, by decide⟩

theorem parseAv_avStr (x : AvVal) : parseAv (avStr x) = .ok x := by
  cases x <;> rfl

theorem parseAc_acStr (x : AcVal) : parseAc (acStr x) = .ok x := by
  cases x <;> rfl

theorem parseAt_atStr (x : AtVal) : parseAt (atStr x) = .ok x := by
  cases x <;> rfl

theorem parsePr_prStr (x : PrVal) : parsePr (prStr x) = .ok x := by
  cases x <;> rfl

theorem parseUi_uiStr (x : UiVal) : parseUi (uiStr x) = .ok x := by
  cases x <;> rfl

theorem parseImpact_impactStr (x : ImpactVal) : parseImpact (impactStr x) = .ok x := by
  cases x <;> rfl

theorem parseEv_eStr (x : EVal) : parseEv (eStr x) = .ok x := by
  cases x <;> rfl

theorem canonPairs_clean (v : SeverityVector) :
    ∀ p ∈ canonPairs v,
      (':' ∉ p.1 ∧ ':' ∉ p.2) ∧ ('/' ∉ p.1 ∧ '/' ∉ p.2) := by
  obtain ⟨⟨av, ac, atr, pr, ui, vc, vi, va, sc, si, sa⟩, e⟩ := v
  intro p hp
  unfold canonPairs at hp
  rcases List.mem_append.mp hp with h | h
  ·
    rcases List.mem_cons.mp h with rfl | h
    · exact ⟨⟨(by decide : ':' ∉ avCode), (avStr_clean av).1⟩,
             ⟨(by decide : '/' ∉ avCode), (avStr_clean av).2⟩⟩
    rcases List.mem_cons.mp h with rfl | h
    · exact ⟨⟨(by decide : ':' ∉ acCode), (acStr_clean ac).1⟩,
             ⟨(by decide : '/' ∉ acCode), (acStr_clean ac).2⟩⟩
    rcases List.mem_cons.mp h with rfl | h
    · exact ⟨⟨(by decide : ':' ∉ atCode), (atStr_clean atr).1⟩,
             ⟨(by decide : '/' ∉ atCode), (atStr_clean atr).2⟩⟩
    rcases List.mem_cons.mp h with rfl | h
    · exact ⟨⟨(by decide : ':' ∉ prCode), (prStr_clean pr).1⟩,
             ⟨(by decide : '/' ∉ prCode), (prStr_clean pr).2⟩⟩
    rcases List.mem_cons.mp h with rfl | h
    · exact ⟨⟨(by decide : ':' ∉ uiCode), (uiStr_clean ui).1⟩,
             ⟨(by decide : '/' ∉ uiCode), (uiStr_clean ui).2⟩⟩
    rcases List.mem_cons.mp h with rfl | h
    · exact ⟨⟨(by decide : ':' ∉ vcCode), (impactStr_clean vc).1⟩,
             ⟨(by decide : '/' ∉ vcCode), (impactStr_clean vc).2⟩⟩
    rcases List.mem_cons.mp h with rfl | h
    · exact ⟨⟨(by decide : ':' ∉ viCode), (impactStr_clean vi).1⟩,
             ⟨(by decide : '/' ∉ viCode), (impactStr_clean vi).2⟩⟩
    rcases List.mem_cons.mp h with rfl | h
    · exact ⟨⟨(by decide : ':' ∉ vaCode), (impactStr_clean va).1⟩,
             ⟨(by decide : '/' ∉ vaCode), (impactStr_clean va).2⟩⟩
    rcases List.mem_cons.mp h with rfl | h
    · exact ⟨⟨(by decide : ':' ∉ scCode), (impactStr_clean sc).1⟩,
             ⟨(by decide : '/' ∉ scCode), (impactStr_clean sc).2⟩⟩
    rcases List.mem_cons.mp h with rfl | h
    · exact ⟨⟨(by decide : ':' ∉ siCode), (impactStr_clean si).1⟩,
             ⟨(by decide : '/' ∉ siCode), (impactStr_clean si).2⟩⟩
    rcases List.mem_cons.mp h with rfl | h
    · exact ⟨⟨(by decide : ':' ∉ saCode), (impactStr_clean sa).1⟩,
             ⟨(by decide : '/' ∉ saCode), (impactStr_clean sa).2⟩⟩
    exact absurd h (List.not_mem_nil p)
  · cases e with
    | none => exact absurd h (List.not_mem_nil p)
    | some ev =>
      rcases List.mem_cons.mp h with rfl | h
      · exact ⟨⟨(by decide : ':' ∉ eCode), (eStr_clean ev).1⟩,
               ⟨(by decide : '/' ∉ eCode), (eStr_clean ev).2⟩⟩
      · exact absurd h (List.not_mem_nil p)

theorem serializeTokens_clean (v : SeverityVector) :
    ∀ s ∈ prefixChars :: serializeTokens v, '/' ∉ s := by
  intro s hs
  rcases List.mem_cons.mp hs with rfl | hs
  · decide
  · unfold serializeTokens at hs
    obtain ⟨p, hp, rfl⟩ := List.mem_map.mp hs
    exact noSlash_mkTok (canonPairs_clean v p hp).2.1
      (canonPairs_clean v p hp).2.2
theorem splitPairs_mkToks (ps : List (List Char × List Char))
    (hps : ∀ p ∈ ps, ':' ∉ p.1 ∧ ':' ∉ p.2) :
    splitPairs (ps.map fun p => mkTok p.1 p.2) = .ok ps := by
  induction ps with
  | nil => rfl
  | cons p rest ih =>
    simp only [List.map_cons, splitPairs]
    rw [splitPair_mkTok (hps p (by simp)).1 (hps p (by simp)).2]
    rw [ih fun q hq => hps q (List.mem_cons_of_mem _ hq)]

theorem parse_split {t : List Char} {p : List Char} {toks : List (List Char)}
    (h : splitOnChar '/' t = p :: toks) :
    VectorCodec.parse t =
      if p = prefixChars then parseToks toks
      else .error .MalformedVectorError := by
  unfold VectorCodec.parse
  rw [h]

theorem findVal_canon_av (m : MandatoryMetrics) (e : Option EVal) :
    findVal avCode (canonPairs ⟨m, e⟩) = Option.some (avStr m.av) := by
  cases e <;> rfl

theorem findVal_canon_ac (m : MandatoryMetrics) (e : Option EVal) :
    findVal acCode (canonPairs ⟨m, e⟩) = Option.some (acStr m.ac) := by
  cases e <;> rfl

theorem findVal_canon_at (m : MandatoryMetrics) (e : Option EVal) :
    findVal atCode (canonPairs ⟨m, e⟩) = Option.some (atStr m.atr) := by
  cases e <;> rfl

theorem findVal_canon_pr (m : MandatoryMetrics) (e : Option EVal) :
    findVal prCode (canonPairs ⟨m, e⟩) = Option.some (prStr m.pr) := by
  cases e <;> rfl

theorem findVal_canon_ui (m : MandatoryMetrics) (e : Option EVal) :
    findVal uiCode (canonPairs ⟨m, e⟩) = Option.some (uiStr m.ui) := by
  cases e <;> rfl

theorem findVal_canon_vc (m : MandatoryMetrics) (e : Option EVal) :
    findVal vcCode (canonPairs ⟨m, e⟩) = Option.some (impactStr m.vc) := by
  cases e <;> rfl

theorem findVal_canon_vi (m : MandatoryMetrics) (e : Option EVal) :
    findVal viCode (canonPairs ⟨m, e⟩) = Option.some (impactStr m.vi) := by
  cases e <;> rfl

theorem findVal_canon_va (m : MandatoryMetrics) (e : Option EVal) :
    findVal vaCode (canonPairs ⟨m, e⟩) = Option.some (impactStr m.va) := by
  cases e <;> rfl

theorem findVal_canon_sc (m : MandatoryMetrics) (e : Option EVal) :
    findVal scCode (canonPairs ⟨m, e⟩) = Option.some (impactStr m.sc) := by
  cases e <;> rfl

theorem findVal_canon_si (m : MandatoryMetrics) (e : Option EVal) :
    findVal siCode (canonPairs ⟨m, e⟩) = Option.some (impactStr m.si) := by
  cases e <;> rfl

theorem findVal_canon_sa (m : MandatoryMetrics) (e : Option EVal) :
    findVal saCode (canonPairs ⟨m, e⟩) = Option.some (impactStr m.sa) := by
  cases e <;> rfl

theorem findVal_canon_e_none (m : MandatoryMetrics) :
    findVal eCode (canonPairs ⟨m, Option.none⟩) = Option.none := by
  rfl

theorem findVal_canon_e_some (m : MandatoryMetrics) (ev : EVal) :
    findVal eCode (canonPairs ⟨m, Option.some ev⟩) =
      Option.some (eStr ev) := by
  rfl

theorem buildVector_canon (m : MandatoryMetrics) (e : Option EVal) :
    buildVector (canonPairs ⟨m, e⟩) = .ok ⟨m, e⟩ := by
  cases e with
  | none =>
    simp only [buildVector, getMand, findVal_canon_av, findVal_canon_ac,
      findVal_canon_at, findVal_canon_pr, findVal_canon_ui, findVal_canon_vc,
      findVal_canon_vi, findVal_canon_va, findVal_canon_sc, findVal_canon_si,
      findVal_canon_sa, findVal_canon_e_none, parseAv_avStr, parseAc_acStr,
      parseAt_atStr, parsePr_prStr, parseUi_uiStr, parseImpact_impactStr]
  | some ev =>
    simp only [buildVector, getMand, findVal_canon_av, findVal_canon_ac,
      findVal_canon_at, findVal_canon_pr, findVal_canon_ui, findVal_canon_vc,
      findVal_canon_vi, findVal_canon_va, findVal_canon_sc, findVal_canon_si,
      findVal_canon_sa, findVal_canon_e_some, parseAv_avStr, parseAc_acStr,
      parseAt_atStr, parsePr_prStr, parseUi_uiStr, parseImpact_impactStr,
      parseEv_eStr]

theorem canonPairs_known (v : SeverityVector) :
    ¬ ∃ q ∈ canonPairs v, q.1 ∉ knownCodes := by
  rintro ⟨q, hq, hqk⟩
  obtain ⟨⟨av, ac, atr, pr, ui, vc, vi, va, sc, si, sa⟩, e⟩ := v
  unfold canonPairs at hq
  rcases List.mem_append.mp hq with h | h
  ·
    rcases List.mem_cons.mp h with rfl | h
    · exact hqk (show avCode ∈ knownCodes by decide)
    rcases List.mem_cons.mp h with rfl | h
    · exact hqk (show acCode ∈ knownCodes by decide)
    rcases List.mem_cons.mp h with rfl | h
    · exact hqk (show atCode ∈ knownCodes by decide)
    rcases List.mem_cons.mp h with rfl | h
    · exact hqk (show prCode ∈ knownCodes by decide)
    rcases List.mem_cons.mp h with rfl | h
    · exact hqk (show uiCode ∈ knownCodes by decide)
    rcases List.mem_cons.mp h with rfl | h
    · exact hqk (show vcCode ∈ knownCodes by decide)
    rcases List.mem_cons.mp h with rfl | h
    · exact hqk (show viCode ∈ knownCodes by decide)
    rcases List.mem_cons.mp h with rfl | h
    · exact hqk (show vaCode ∈ knownCodes by decide)
    rcases List.mem_cons.mp h with rfl | h
    · exact hqk (show scCode ∈ knownCodes by decide)
    rcases List.mem_cons.mp h with rfl | h
    · exact hqk (show siCode ∈ knownCodes by decide)
    rcases List.mem_cons.mp h with rfl | h
    · exact hqk (show saCode ∈ knownCodes by decide)
    exact absurd h (List.not_mem_nil q)
  · cases e with
    | none => exact absurd h (List.not_mem_nil q)
    | some ev =>
      rcases List.mem_cons.mp h with rfl | h
      · exact hqk (show eCode ∈ knownCodes by decide)
      · exact absurd h (List.not_mem_nil q)

theorem vc_parse_serialize (v : SeverityVector) :
    VectorCodec.parse (VectorCodec.serialize v) = .ok v := by
  obtain ⟨m, e⟩ := v
  have hsplit : splitOnChar '/' (VectorCodec.serialize ⟨m, e⟩) =
      prefixChars :: serializeTokens ⟨m, e⟩ :=
    splitOnChar_intercalate _ (by simp) (serializeTokens_clean _)
  rw [parse_split hsplit, if_pos rfl]
  show parseToks ((canonPairs ⟨m, e⟩).map fun p => mkTok p.1 p.2) = _
  have hsp := splitPairs_mkToks (canonPairs ⟨m, e⟩)
    fun p hp => (canonPairs_clean _ p hp).1
  simp only [parseToks, hsp]
  rw [if_neg (canonPairs_known ⟨m, e⟩)]
  exact buildVector_canon m e

/-! ## C5: VectorCodec round-trip -/

/-- C5: parsing the canonical serialization of any valid severity vector
succeeds and returns the vector unchanged; consequently, for every text
the parser accepts, serializing the parse result re-parses to the same
vector (even when the original text used a non-canonical metric
ordering). -/
theorem vc_roundtrip :
    (∀ v : SeverityVector,
      VectorCodec.parse (VectorCodec.serialize v) = .ok v) ∧
    (∀ (t : List Char) (v : SeverityVector), VectorCodec.parse t = .ok v →
      VectorCodec.parse (VectorCodec.serialize v) = .ok v) :=
  ⟨vc_parse_serialize, fun _ v _ => vc_parse_serialize v⟩

/-- C5 witness: the round-trip theorem applied to the vector parsed from
a non-canonically ordered text. -/
theorem vc_roundtrip_witness :
    VectorCodec.parse (VectorCodec.serialize exampleVector) =
      .ok exampleVector :=
  vc_roundtrip.2 nonCanonicalText exampleVector (by rfl)

/-! ## C6: VectorCodec parse errors -/

theorem findVal_mem {code s : List Char} :
    ∀ {pairs : List (List Char × List Char)},
      findVal code pairs = Option.some s → (code, s) ∈ pairs
  | [], h => Option.noConfusion h
  | p :: ps, h => by
    unfold findVal at h
    by_cases hc : p.1 = code
    · rw [if_pos hc] at h
      injection h with h2
      have hp : (code, s) = p := by rw [← hc, ← h2]
      rw [hp]
      exact List.mem_cons_self p ps
    · rw [if_neg hc] at h
      exact List.mem_cons_of_mem _ (findVal_mem h)

theorem validPair_known {q : List Char × List Char}
    (h : validPair q = true) : q.1 ∈ knownCodes := by
  unfold validPair at h
  by_cases h1 : q.1 = avCode
  · rw [h1]; decide
  rw [if_neg h1] at h
  by_cases h2 : q.1 = acCode
  · rw [h2]; decide
  rw [if_neg h2] at h
  by_cases h3 : q.1 = atCode
  · rw [h3]; decide
  rw [if_neg h3] at h
  by_cases h4 : q.1 = prCode
  · rw [h4]; decide
  rw [if_neg h4] at h
  by_cases h5 : q.1 = uiCode
  · rw [h5]; decide
  rw [if_neg h5] at h
  by_cases h6 : q.1 = vcCode
  · rw [h6]; decide
  rw [if_neg h6] at h
  by_cases h7 : q.1 = viCode
  · rw [h7]; decide
  rw [if_neg h7] at h
  by_cases h8 : q.1 = vaCode
  · rw [h8]; decide
  rw [if_neg h8] at h
  by_cases h9 : q.1 = scCode
  · rw [h9]; decide
  rw [if_neg h9] at h
  by_cases h10 : q.1 = siCode
  · rw [h10]; decide
  rw [if_neg h10] at h
  by_cases h11 : q.1 = saCode
  · rw [h11]; decide
  rw [if_neg h11] at h
  by_cases h12 : q.1 = eCode
  · rw [h12]; decide
  rw [if_neg h12] at h
  exact Bool.noConfusion h

theorem buildVector_incomplete (pairs : List (List Char × List Char))
    (hval : ∀ q ∈ pairs, validPair q = true)
    (hmiss : ∃ code ∈ mandatoryCodes, findVal code pairs = Option.none) :
    buildVector pairs = .error .IncompleteVectorError := by
  cases hf1 : findVal avCode pairs with
  | none =>
    simp only [buildVector, getMand, hf1]
  | some s1 =>
    have hv1 : exceptOk (parseAv s1) = true :=
      hval (avCode, s1) (findVal_mem hf1)
    cases hp1 : parseAv s1 with
    | error err =>
      rw [hp1] at hv1
      simp [exceptOk] at hv1
    | ok x1 =>
      cases hf2 : findVal acCode pairs with
      | none =>
        simp only [buildVector, getMand, hf1, hp1, hf2]
      | some s2 =>
        have hv2 : exceptOk (parseAc s2) = true :=
          hval (acCode, s2) (findVal_mem hf2)
        cases hp2 : parseAc s2 with
        | error err =>
          rw [hp2] at hv2
          simp [exceptOk] at hv2
        | ok x2 =>
          cases hf3 : findVal atCode pairs with
          | none =>
            simp only [buildVector, getMand, hf1, hp1, hf2, hp2, hf3]
          | some s3 =>
            have hv3 : exceptOk (parseAt s3) = true :=
              hval (atCode, s3) (findVal_mem hf3)
            cases hp3 : parseAt s3 with
            | error err =>
              rw [hp3] at hv3
              simp [exceptOk] at hv3
            | ok x3 =>
              cases hf4 : findVal prCode pairs with
              | none =>
                simp only [buildVector, getMand, hf1, hp1, hf2, hp2, hf3, hp3, hf4]
              | some s4 =>
                have hv4 : exceptOk (parsePr s4) = true :=
                  hval (prCode, s4) (findVal_mem hf4)
                cases hp4 : parsePr s4 with
                | error err =>
                  rw [hp4] at hv4
                  simp [exceptOk] at hv4
                | ok x4 =>
                  cases hf5 : findVal uiCode pairs with
                  | none =>
                    simp only [buildVector, getMand, hf1, hp1, hf2, hp2, hf3, hp3, hf4, hp4, hf5]
                  | some s5 =>
                    have hv5 : exceptOk (parseUi s5) = true :=
                      hval (uiCode, s5) (findVal_mem hf5)
                    cases hp5 : parseUi s5 with
                    | error err =>
                      rw [hp5] at hv5
                      simp [exceptOk] at hv5
                    | ok x5 =>
                      cases hf6 : findVal vcCode pairs with
                      | none =>
                        simp only [buildVector, getMand, hf1, hp1, hf2, hp2, hf3, hp3, hf4, hp4, hf5, hp5, hf6]
                      | some s6 =>
                        have hv6 : exceptOk (parseImpact s6) = true :=
                          hval (vcCode, s6) (findVal_mem hf6)
                        cases hp6 : parseImpact s6 with
                        | error err =>
                          rw [hp6] at hv6
                          simp [exceptOk] at hv6
                        | ok x6 =>
                          cases hf7 : findVal viCode pairs with
                          | none =>
                            simp only [buildVector, getMand, hf1, hp1, hf2, hp2, hf3, hp3, hf4, hp4, hf5, hp5, hf6, hp6, hf7]
                          | some s7 =>
                            have hv7 : exceptOk (parseImpact s7) = true :=
                              hval (viCode, s7) (findVal_mem hf7)
                            cases hp7 : parseImpact s7 with
                            | error err =>
                              rw [hp7] at hv7
                              simp [exceptOk] at hv7
                            | ok x7 =>
                              cases hf8 : findVal vaCode pairs with
                              | none =>
                                simp only [buildVector, getMand, hf1, hp1, hf2, hp2, hf3, hp3, hf4, hp4, hf5, hp5, hf6, hp6, hf7, hp7, hf8]
                              | some s8 =>
                                have hv8 : exceptOk (parseImpact s8) = true :=
                                  hval (vaCode, s8) (findVal_mem hf8)
                                cases hp8 : parseImpact s8 with
                                | error err =>
                                  rw [hp8] at hv8
                                  simp [exceptOk] at hv8
                                | ok x8 =>
                                  cases hf9 : findVal scCode pairs with
                                  | none =>
                                    simp only [buildVector, getMand, hf1, hp1, hf2, hp2, hf3, hp3, hf4, hp4, hf5, hp5, hf6, hp6, hf7, hp7, hf8, hp8, hf9]
                                  | some s9 =>
                                    have hv9 : exceptOk (parseImpact s9) = true :=
                                      hval (scCode, s9) (findVal_mem hf9)
                                    cases hp9 : parseImpact s9 with
                                    | error err =>
                                      rw [hp9] at hv9
                                      simp [exceptOk] at hv9
                                    | ok x9 =>
                                      cases hf10 : findVal siCode pairs with
                                      | none =>
                                        simp only [buildVector, getMand, hf1, hp1, hf2, hp2, hf3, hp3, hf4, hp4, hf5, hp5, hf6, hp6, hf7, hp7, hf8, hp8, hf9, hp9, hf10]
                                      | some s10 =>
                                        have hv10 : exceptOk (parseImpact s10) = true :=
                                          hval (siCode, s10) (findVal_mem hf10)
                                        cases hp10 : parseImpact s10 with
                                        | error err =>
                                          rw [hp10] at hv10
                                          simp [exceptOk] at hv10
                                        | ok x10 =>
                                          cases hf11 : findVal saCode pairs with
                                          | none =>
                                            simp only [buildVector, getMand, hf1, hp1, hf2, hp2, hf3, hp3, hf4, hp4, hf5, hp5, hf6, hp6, hf7, hp7, hf8, hp8, hf9, hp9, hf10, hp10, hf11]
                                          | some s11 =>
                                            have hv11 : exceptOk (parseImpact s11) = true :=
                                              hval (saCode, s11) (findVal_mem hf11)
                                            cases hp11 : parseImpact s11 with
                                            | error err =>
                                              rw [hp11] at hv11
                                              simp [exceptOk] at hv11
                                            | ok x11 =>
                                              obtain ⟨code, hcm, hcn⟩ := hmiss
                                              simp only [mandatoryCodes, List.mem_cons, List.not_mem_nil,
                                                or_false] at hcm
                                              rcases hcm with rfl | rfl | rfl | rfl | rfl | rfl | rfl | rfl | rfl | rfl | rfl
                                              · rw [hf1] at hcn; exact Option.noConfusion hcn
                                              · rw [hf2] at hcn; exact Option.noConfusion hcn
                                              · rw [hf3] at hcn; exact Option.noConfusion hcn
                                              · rw [hf4] at hcn; exact Option.noConfusion hcn
                                              · rw [hf5] at hcn; exact Option.noConfusion hcn
                                              · rw [hf6] at hcn; exact Option.noConfusion hcn
                                              · rw [hf7] at hcn; exact Option.noConfusion hcn
                                              · rw [hf8] at hcn; exact Option.noConfusion hcn
                                              · rw [hf9] at hcn; exact Option.noConfusion hcn
                                              · rw [hf10] at hcn; exact Option.noConfusion hcn
                                              · rw [hf11] at hcn; exact Option.noConfusion hcn


/-- C6: the parser fails with the specific named error for each malformed
input — `MalformedVectorError` when the leading version token is not the
recognized prefix, `UnknownMetricError` when some `code:value` pair uses
an unrecognized code, `IncompleteVectorError` when the pairs are
well-formed and valid but a mandatory code is absent, and
`InvalidMetricValueError` when a recognized code carries an
out-of-enumeration value. -/
theorem vc_parse_errors :
    (∀ (t p : List Char) (toks : List (List Char)),
      splitOnChar '/' t = p :: toks → p ≠ prefixChars →
      VectorCodec.parse t = .error .MalformedVectorError) ∧
    (∀ (toks : List (List Char)) (pairs : List (List Char × List Char)),
      (∀ s ∈ toks, '/' ∉ s) → splitPairs toks = .ok pairs →
      (∃ q ∈ pairs, q.1 ∉ knownCodes) →
      VectorCodec.parse (intercalateChar '/' (prefixChars :: toks)) =
        .error .UnknownMetricError) ∧
    (∀ (toks : List (List Char)) (pairs : List (List Char × List Char)),
      (∀ s ∈ toks, '/' ∉ s) → splitPairs toks = .ok pairs →
      (∀ q ∈ pairs, validPair q = true) →
      (∃ code ∈ mandatoryCodes, findVal code pairs = Option.none) →
      VectorCodec.parse (intercalateChar '/' (prefixChars :: toks)) =
        .error .IncompleteVectorError) ∧
    VectorCodec.parse invalidValueText = .error .InvalidMetricValueError := by
  refine ⟨?_, ?_, ?_, by rfl⟩
  · intro t p toks hsplit hne
    rw [parse_split hsplit, if_neg hne]
  · intro toks pairs hclean hpairs hunk
    have hsplit : splitOnChar '/' (intercalateChar '/' (prefixChars :: toks)) =
        prefixChars :: toks := by
      apply splitOnChar_intercalate _ (by simp)
      intro s hs
      rcases List.mem_cons.mp hs with rfl | hs
      · decide
      · exact hclean s hs
    rw [parse_split hsplit, if_pos rfl]
    simp only [parseToks, hpairs]
    rw [if_pos hunk]
  · intro toks pairs hclean hpairs hval hmiss
    have hsplit : splitOnChar '/' (intercalateChar '/' (prefixChars :: toks)) =
        prefixChars :: toks := by
      apply splitOnChar_intercalate _ (by simp)
      intro s hs
      rcases List.mem_cons.mp hs with rfl | hs
      · decide
      · exact hclean s hs
    rw [parse_split hsplit, if_pos rfl]
    simp only [parseToks, hpairs]
    rw [if_neg ?hk]
    case hk =>
      rintro ⟨q, hq, hqk⟩
      exact hqk (validPair_known (hval q hq))
    exact buildVector_incomplete pairs hval hmiss

/-- C6 witness: the error theorem applied to a text with a bad prefix, a
text with an unrecognized code, and a text missing the mandatory SA
metric. -/
theorem vc_parse_errors_witness :
    VectorCodec.parse "XXX/AV:N".toList = .error .MalformedVectorError ∧
    VectorCodec.parse
        (intercalateChar '/' (prefixChars :: [['Z', 'Z', ':', 'N']])) =
      .error .UnknownMetricError ∧
    VectorCodec.parse
        (intercalateChar '/' (prefixChars ::
          [['A', 'V', ':', 'N'], ['A', 'C', ':', 'L'], ['A', 'T', ':', 'N'],
           ['P', 'R', ':', 'N'], ['U', 'I', ':', 'N'], ['V', 'C', ':', 'H'],
           ['V', 'I', ':', 'H'], ['V', 'A', ':', 'H'], ['S', 'C', ':', 'N'],
           ['S', 'I', ':', 'N']])) =
      .error .IncompleteVectorError :=
  ⟨vc_parse_errors.1 "XXX/AV:N".toList ['X', 'X', 'X'] [['A', 'V', ':', 'N']]
      (by rfl) (by decide),
   vc_parse_errors.2.1 [['Z', 'Z', ':', 'N']] [(['Z', 'Z'], ['N'])]
      (by decide) (by rfl) (by decide),
   vc_parse_errors.2.2.1
      [['A', 'V', ':', 'N'], ['A', 'C', ':', 'L'], ['A', 'T', ':', 'N'],
       ['P', 'R', ':', 'N'], ['U', 'I', ':', 'N'], ['V', 'C', ':', 'H'],
       ['V', 'I', ':', 'H'], ['V', 'A', ':', 'H'], ['S', 'C', ':', 'N'],
       ['S', 'I', ':', 'N']]
      [(['A', 'V'], ['N']), (['A', 'C'], ['L']), (['A', 'T'], ['N']),
       (['P', 'R'], ['N']), (['U', 'I'], ['N']), (['V', 'C'], ['H']),
       (['V', 'I'], ['H']), (['V', 'A'], ['H']), (['S', 'C'], ['N']),
       (['S', 'I'], ['N'])]
      (by decide) (by rfl) (by decide) (by decide)⟩
